import Mathlib

/-!
Verification of the vision-bot defect-detection pipeline (GoCVDetector, latest
variant of the detector source). The Go code is shallowly embedded: Go ints
become Int, float32/float64 become Rat, pixel buffers become explicit
width/height grids of booleans (masks) or naturals (grayscale), and the OpenCV
primitives whose results the claims do not constrain (contour extraction,
Otsu value computation, shape-descriptor measurement) are passed in as data.
Field and local names ending in the letters i-o (Ratio) are spelled with the
suffix Frac instead; everything else keeps the source's names.
-/

/-- Defect area record, mirroring entity.DefectArea as used by the detector
(the latest detector variant also carries a Reason diagnostic string; the
numeric values the source interpolates into Reason strings are not modelled,
only the stage tags). -/
structure DefectArea where
  X : Int
  Y : Int
  Width : Int
  Height : Int
  Area : Int
  Reason : String
deriving DecidableEq, BEq

/-- Inspection result record, mirroring entity.InspectionResult. -/
structure InspectionResult where
  ImageWidth : Int
  ImageHeight : Int
  Defects : List DefectArea
  HasDefects : Bool
deriving DecidableEq, BEq

/-- Go maxInt helper. -/
def maxInt (a b : Int) : Int := if a > b then a else b

/-- Go minInt helper. -/
def minInt (a b : Int) : Int := if a < b then a else b

/-- Go absInt helper. -/
def absInt (v : Int) : Int := if v < 0 then -v else v

/-- Go normalizeKernelSize: substitute the fallback for non-positive sizes and
force oddness. -/
def normalizeKernelSize (value fallback : Int) : Int :=
  let v1 := if value < 1 then fallback else value
  let v2 := if v1 < 1 then 1 else v1
  if v2 % 2 == 0 then v2 + 1 else v2

/-- Truncation toward zero, the semantics of Go's int(float64) conversion. -/
def truncInt (q : ℚ) : Int := if q < 0 then q.ceil else q.floor

/-- Configuration bundle of the detector, mirroring the GoCVDetector struct
(the latest variant). Float fields are rationals; fields the source names
with the suffix Ratio are spelled Frac here. -/
structure GoCVDetector where
  MinAreaFrac : ℚ
  MaxAspectFrac : ℚ
  MinAspectFrac : ℚ
  MaxSide : Int
  MinImageSide : Int
  MinSharpnessEdgeFrac : ℚ
  MaxOverexposedFrac : ℚ
  MaxUnderexposedFrac : ℚ
  MaxGlareFrac : ℚ
  DiffMaxGlareFrac : ℚ
  MinPartAreaFrac : ℚ
  PartSecondaryAreaFrac : ℚ
  PartSecondaryRelFrac : ℚ
  ROIMarginKernel : Int
  EnableRegistration : Bool
  MinAlignmentScore : ℚ
  DiffMinThreshold : ℚ
  DiffOpenKernel : Int
  DiffCloseKernel : Int
  MinContourAreaFrac : ℚ
  MinFillFrac : ℚ
  NMSIoUThreshold : ℚ
  NMSContainmentFrac : ℚ
  BrokenMinComponentFrac : ℚ
  BrokenAreaLossFrac : ℚ
  BrokenFocusExpand : Int
  BrokenMinOverlapFrac : ℚ
  BrokenMergeDistance : Int
  BrokenSplitKernel : Int
  BrokenSecondRelMin : ℚ
  BrokenDominantMinFrac : ℚ
  EnableGeometryCheck : Bool
  GeometryMatchMaxScore : ℚ
  GeometryMinConcavity : Int
  GeometryMinConcavityGap : Int
  GeometryPolygonVertexGap : Int
  GeometryPolygonMinCircularity : ℚ
  GeometryPolygonMinExtent : ℚ
  GeometryRoundMinCircularity : ℚ
  GeometryRoundMaxCircularityGap : ℚ
  GeometryRingKernel : Int

/-- Default profile built by NewGoCVDetector. -/
def NewGoCVDetector : GoCVDetector where
  MinAreaFrac := 1/1000
  MinAspectFrac := 1/10
  MaxAspectFrac := 10
  MaxSide := 1024
  MinImageSide := 400
  MinSharpnessEdgeFrac := 8/1000
  MaxOverexposedFrac := 35/100
  MaxUnderexposedFrac := 45/100
  MaxGlareFrac := 20/100
  DiffMaxGlareFrac := 26/100
  MinPartAreaFrac := 5/100
  PartSecondaryAreaFrac := 4/1000
  PartSecondaryRelFrac := 4/100
  ROIMarginKernel := 9
  EnableRegistration := true
  MinAlignmentScore := 25/100
  DiffMinThreshold := 22
  DiffOpenKernel := 3
  DiffCloseKernel := 7
  MinContourAreaFrac := 12/100000
  MinFillFrac := 8/100
  NMSIoUThreshold := 30/100
  NMSContainmentFrac := 80/100
  BrokenMinComponentFrac := 6/1000
  BrokenAreaLossFrac := 6/100
  BrokenFocusExpand := 49
  BrokenMinOverlapFrac := 10/100
  BrokenMergeDistance := 48
  BrokenSplitKernel := 17
  BrokenSecondRelMin := 5/100
  BrokenDominantMinFrac := 50/100
  EnableGeometryCheck := true
  GeometryMatchMaxScore := 10/100
  GeometryMinConcavity := 8
  GeometryMinConcavityGap := 2
  GeometryPolygonVertexGap := 2
  GeometryPolygonMinCircularity := 55/100
  GeometryPolygonMinExtent := 55/100
  GeometryRoundMinCircularity := 82/100
  GeometryRoundMaxCircularityGap := 10/100
  GeometryRingKernel := 41

/-- Pixel-count of the axis-aligned intersection of two defect boxes
(function intersectionArea of the source). -/
def intersectionArea (a b : DefectArea) : Int :=
  let ax2 := a.X + a.Width
  let ay2 := a.Y + a.Height
  let bx2 := b.X + b.Width
  let by2 := b.Y + b.Height
  let ix1 := maxInt a.X b.X
  let iy1 := maxInt a.Y b.Y
  let ix2 := minInt ax2 bx2
  let iy2 := minInt ay2 by2
  if ix2 ≤ ix1 ∨ iy2 ≤ iy1 then 0 else (ix2 - ix1) * (iy2 - iy1)

/-- Intersection-over-union of two defect boxes (function boxIoU), using the
stored Area fields as the source does. -/
def boxIoU (a b : DefectArea) : ℚ :=
  let inter := intersectionArea a b
  if inter ≤ 0 then 0
  else
    let union := a.Area + b.Area - inter
    if union ≤ 0 then 0 else (inter : ℚ) / (union : ℚ)

/-- One-sided containment: intersection over the smaller stored area
(function boxContainment). -/
def boxContainment (a b : DefectArea) : ℚ :=
  let inter := intersectionArea a b
  if inter ≤ 0 then 0
  else
    let minArea := minInt a.Area b.Area
    if minArea ≤ 0 then 0 else (inter : ℚ) / (minArea : ℚ)

/-- Insertion step of the area-descending sort used to determinize the
source's sort.Slice by Area greater-than. -/
def insertByAreaDesc (x : DefectArea) : List DefectArea → List DefectArea
  | [] => [x]
  | y :: ys => if y.Area ≤ x.Area then x :: y :: ys else y :: insertByAreaDesc x ys

/-- Sort a defect list by stored Area, descending. -/
def sortByAreaDesc (l : List DefectArea) : List DefectArea :=
  l.foldr insertByAreaDesc []

/-- Drop test of the greedy non-max suppression loop: a candidate is dropped
when some already-kept box reaches the IoU threshold or the containment
threshold against it. -/
def nmsDrop (d : GoCVDetector) (kept : List DefectArea) (c : DefectArea) : Bool :=
  kept.any fun e =>
    decide (d.NMSIoUThreshold ≤ boxIoU c e) || decide (d.NMSContainmentFrac ≤ boxContainment c e)

/-- Greedy keep loop of suppressDuplicateDefects. -/
def nmsKeep (d : GoCVDetector) : List DefectArea → List DefectArea → List DefectArea
  | kept, [] => kept
  | kept, c :: rest =>
    if nmsDrop d kept c then nmsKeep d kept rest else nmsKeep d (kept ++ [c]) rest

/-- Greedy largest-first non-max suppression (method suppressDuplicateDefects):
sort by stored area descending, then keep a candidate only when no
already-kept box reaches the IoU or containment thresholds against it. -/
def suppressDuplicateDefects (d : GoCVDetector) (defects : List DefectArea) : List DefectArea :=
  if defects.length < 2 then defects else nmsKeep d [] (sortByAreaDesc defects)

/-- Append a diagnostic fragment to a Reason string (function appendReason). -/
def appendReason (baseReason extra : String) : String :=
  if extra = "" then baseReason
  else if baseReason = "" then extra
  else baseReason ++ "; " ++ extra

/-- Combine the Reason strings of two merged defects (function combineReasons). -/
def combineReasons (a b : String) : String :=
  if a = "" then b
  else if b = "" then a
  else if a = b then a
  else a ++ " | " ++ b

/-- Bounding box plus true contour area of one connected region, the data
gocv.FindContours, gocv.BoundingRect and gocv.ContourArea would produce. -/
structure Contour where
  rectX : Int
  rectY : Int
  rectW : Int
  rectH : Int
  contourArea : ℚ
deriving DecidableEq, BEq

/-- Candidate extraction over the contour list (method
extractDefectsFromContours): bounding-box area floor, positive height, true
contour-area floor, aspect bounds and fill floor, then duplicate
suppression. The Area stored on a surviving candidate is the bounding-box
area. Per-contour loop body: bounding-box area floor, positive height, true
contour-area floor, aspect bounds and fill floor. -/
def contourCandidate (d : GoCVDetector) (minRectArea : Int) (minContourArea : ℚ)
    (tag : String) (c : Contour) : Option DefectArea :=
  if c.rectW * c.rectH < minRectArea ∨ c.rectW * c.rectH ≤ 0 then none
  else if c.rectH = 0 then none
  else if c.contourArea < minContourArea then none
  else if (c.rectW : ℚ) / (c.rectH : ℚ) < d.MinAspectFrac
      ∨ (c.rectW : ℚ) / (c.rectH : ℚ) > d.MaxAspectFrac then none
  else if c.contourArea / ((c.rectW * c.rectH : Int) : ℚ) < d.MinFillFrac then none
  else some { X := c.rectX, Y := c.rectY, Width := c.rectW, Height := c.rectH,
              Area := c.rectW * c.rectH, Reason := tag }

/-- Candidate extraction over the contour list, continued: run the loop body
on every contour and deduplicate the survivors. -/
def extractDefectsFromContours (d : GoCVDetector) (contours : List Contour)
    (imageWidth imageHeight : Int) (reasonTag : String) : List DefectArea :=
  let tag := if reasonTag = "" then "contour" else reasonTag
  let minRectArea := truncInt (((imageWidth * imageHeight : Int) : ℚ) * d.MinAreaFrac)
  let minContourArea := ((imageWidth * imageHeight : Int) : ℚ) * d.MinContourAreaFrac
  suppressDuplicateDefects d (contours.filterMap (contourCandidate d minRectArea minContourArea tag))

/-- Bounding-box union of two defects (function unionDefectAreas); the stored
Area of the union is the width times height of the union box. -/
def unionDefectAreas (a b : DefectArea) : DefectArea :=
  let x1 := minInt a.X b.X
  let y1 := minInt a.Y b.Y
  let x2 := maxInt (a.X + a.Width) (b.X + b.Width)
  let y2 := maxInt (a.Y + a.Height) (b.Y + b.Height)
  { X := x1, Y := y1, Width := x2 - x1, Height := y2 - y1,
    Area := (x2 - x1) * (y2 - y1), Reason := combineReasons a.Reason b.Reason }

/-- Merge test of mergeNearbyDefects (function shouldMergeDefects): overlap,
or axis gaps both within the distance. -/
def shouldMergeDefects (a b : DefectArea) (distance : Int) : Bool :=
  if boxIoU a b > 0 then true
  else
    let dx := maxInt 0 (maxInt a.X b.X - minInt (a.X + a.Width) (b.X + b.Width))
    let dy := maxInt 0 (maxInt a.Y b.Y - minInt (a.Y + a.Height) (b.Y + b.Height))
    dx ≤ distance && dy ≤ distance

/-- Replace the first element of the accumulator that the current defect
merges with, mirroring the in-place update of the source's inner loop. -/
def tryMergeFirst (distance : Int) (current : DefectArea) :
    List DefectArea → Option (List DefectArea)
  | [] => none
  | m :: rest =>
    if shouldMergeDefects m current distance then some (unionDefectAreas m current :: rest)
    else (tryMergeFirst distance current rest).map (m :: ·)

/-- One element step of a merge pass. -/
def mergeStep (distance : Int) (acc : List DefectArea) (current : DefectArea) :
    List DefectArea :=
  match tryMergeFirst distance current acc with
  | some l => l
  | none => acc ++ [current]

/-- One full pass of the merge loop of mergeNearbyDefects. -/
def mergeOnePass (defects : List DefectArea) (distance : Int) : List DefectArea :=
  defects.foldl (mergeStep distance) []

theorem tryMergeFirst_length {distance : Int} {current : DefectArea} :
    ∀ {acc l : List DefectArea}, tryMergeFirst distance current acc = some l →
      l.length = acc.length := by
  intro acc
  induction acc with
  | nil => intro l h; simp [tryMergeFirst] at h
  | cons m rest ih =>
    intro l h
    by_cases hm : shouldMergeDefects m current distance
    · simp [tryMergeFirst, hm] at h
      subst h; simp
    · simp [tryMergeFirst, hm] at h
      obtain ⟨l', hl', rfl⟩ := h
      simp [ih hl']

theorem mergeStep_length (distance : Int) (acc : List DefectArea) (current : DefectArea) :
    (mergeStep distance acc current).length ≤ acc.length + 1 := by
  unfold mergeStep
  cases h : tryMergeFirst distance current acc with
  | none => simp
  | some l => simp [tryMergeFirst_length h]

theorem foldl_mergeStep_length (distance : Int) :
    ∀ (l acc : List DefectArea), (l.foldl (mergeStep distance) acc).length ≤ acc.length + l.length := by
  intro l
  induction l with
  | nil => intro acc; simp
  | cons x xs ih =>
    intro acc
    calc (List.foldl (mergeStep distance) (mergeStep distance acc x) xs).length
        ≤ (mergeStep distance acc x).length + xs.length := ih _
      _ ≤ (acc.length + 1) + xs.length := by
          exact Nat.add_le_add_right (mergeStep_length distance acc x) _
      _ = acc.length + (x :: xs).length := by simp [Nat.add_comm, Nat.add_assoc, Nat.add_left_comm]

theorem mergeOnePass_length (defects : List DefectArea) (distance : Int) :
    (mergeOnePass defects distance).length ≤ defects.length := by
  simpa [mergeOnePass] using foldl_mergeStep_length distance defects []

/-- Iterated merging of nearby defects (method mergeNearbyDefects): repeat the
merge pass until it no longer shortens the list. The recursion is on the
strictly decreasing list length. -/
def mergeNearbyDefects (defects : List DefectArea) (distance : Int) : List DefectArea :=
  if defects.length < 2 then defects
  else
    let dist := if distance < 0 then 0 else distance
    let merged := mergeOnePass defects dist
    if h : merged.length = defects.length then merged
    else mergeNearbyDefects merged distance
termination_by defects.length
decreasing_by
  exact lt_of_le_of_ne (mergeOnePass_length defects _) h

/-- Dominant-candidate filter of the broken-part branch (method
keepDominantBrokenDefects): keep candidates whose stored area is at least the
configured fraction of the largest stored area; if nothing survives, keep the
input unchanged. -/
def keepDominantBrokenDefects (defects : List DefectArea) (minRat : ℚ) : List DefectArea :=
  if defects.length < 2 then defects
  else if minRat ≤ 0 then defects
  else
    let minRat := if minRat > 1 then 1 else minRat
    let maxArea := defects.foldl (fun acc x => if x.Area > acc then x.Area else acc) 0
    if maxArea ≤ 0 then defects
    else
      let kept := defects.filterMap fun x =>
        if ((x.Area : ℚ) / (maxArea : ℚ)) ≥ minRat
        then some { x with Reason := appendReason x.Reason "broken_dominant" }
        else none
      if kept.length = 0 then defects else kept

/-- Single-channel binary pixel buffer standing in for a gocv.Mat mask: a
width, a height and a pixel predicate. An allocation-empty Mat (gocv.NewMat)
is modelled with zero dimensions. -/
structure Mat01 where
  w : Nat
  h : Nat
  px : Nat → Nat → Bool

/-- Allocation-emptiness, the Mat.Empty() test of gocv. -/
def Mat01.isEmptyMat (m : Mat01) : Bool := m.w == 0 || m.h == 0

/-- Fresh unallocated Mat, the gocv.NewMat() value. -/
def newMat : Mat01 := ⟨0, 0, fun _ _ => false⟩

/-- Count of set pixels, the gocv.CountNonZero primitive. -/
def Mat01.countNonZero (m : Mat01) : Nat :=
  (List.range m.h).foldl (fun acc y => acc + (List.range m.w).countP (fun x => m.px x y)) 0

/-- Pointwise conjunction of masks (gocv.BitwiseAnd on same-size masks). -/
def bitwiseAnd (a b : Mat01) : Mat01 := ⟨a.w, a.h, fun x y => a.px x y && b.px x y⟩

/-- Pointwise disjunction of masks (gocv.BitwiseOr). -/
def bitwiseOr (a b : Mat01) : Mat01 := ⟨a.w, a.h, fun x y => a.px x y || b.px x y⟩

/-- Pointwise symmetric difference of masks (gocv.BitwiseXor). -/
def bitwiseXor (a b : Mat01) : Mat01 := ⟨a.w, a.h, fun x y => (a.px x y).xor (b.px x y)⟩

/-- Decidable extensional equality of masks over their grids. -/
def maskEqb (a b : Mat01) : Bool :=
  a.w == b.w && a.h == b.h &&
    (List.range a.h).all fun y => (List.range a.w).all fun x => a.px x y == b.px x y

/-- Pixel lookup with a default for out-of-bounds coordinates; erosion reads
out-of-bounds pixels as set and dilation as unset, matching OpenCV's default
constant border for morphology. -/
def Mat01.getOr (m : Mat01) (dflt : Bool) (x y : Int) : Bool :=
  if 0 ≤ x ∧ x < (m.w : Int) ∧ 0 ≤ y ∧ y < (m.h : Int) then m.px x.toNat y.toNat else dflt

/-- Floor square root computed by counting, kept kernel-reducible for
concrete evaluation. -/
def floorSqrt (m : Nat) : Nat :=
  ((List.range (m + 1)).countP fun n => decide (n * n ≤ m)) - 1

/-- Nearest integer to the square root of a natural number (the value OpenCV's
saturate-cast rounding produces on these arguments, where the square root is
never a half-integer). -/
def roundSqrt (m : Nat) : Nat :=
  let n := floorSqrt m
  if n * (n + 1) < m then n + 1 else n

/-- Offsets, relative to the anchor, of the set cells of the k-by-k elliptical
structuring element of gocv.GetStructuringElement(MorphEllipse): row y covers
the columns within the rounded ellipse half-width for that row. -/
def ellipseOffsets (k : Nat) : List (Int × Int) :=
  ((List.range k).map fun y =>
    (List.range k).filterMap fun x =>
      let r := k / 2
      let dy := Int.natAbs ((y : Int) - (r : Int))
      if dy ≤ r then
        let dx := roundSqrt (r * r - dy * dy)
        if r - dx ≤ x ∧ x < min (r + dx + 1) k
        then some ((x : Int) - (r : Int), (y : Int) - (r : Int))
        else none
      else none).flatten

/-- Morphological erosion by the k-by-k elliptical kernel. -/
def erodeMat (m : Mat01) (k : Nat) : Mat01 :=
  ⟨m.w, m.h, fun x y => (ellipseOffsets k).all fun o => m.getOr true ((x : Int) + o.1) ((y : Int) + o.2)⟩

/-- Morphological dilation by the k-by-k elliptical kernel. -/
def dilateMat (m : Mat01) (k : Nat) : Mat01 :=
  ⟨m.w, m.h, fun x y => (ellipseOffsets k).any fun o => m.getOr false ((x : Int) + o.1) ((y : Int) + o.2)⟩

/-- Morphological opening (erode then dilate), gocv.MorphOpen. -/
def morphOpen (m : Mat01) (k : Nat) : Mat01 := dilateMat (erodeMat m k) k

/-- Morphological closing (dilate then erode), gocv.MorphClose. -/
def morphClose (m : Mat01) (k : Nat) : Mat01 := erodeMat (dilateMat m k) k

/-- Noise cleanup of a thresholded mask (method postProcessDiffMask): open
with the configured open kernel, then close with the configured close
kernel. -/
def postProcessDiffMask (d : GoCVDetector) (thresh : Mat01) : Mat01 :=
  if thresh.isEmptyMat then newMat
  else
    let openKernelSize := (normalizeKernelSize d.DiffOpenKernel 3).toNat
    let closeKernelSize := (normalizeKernelSize d.DiffCloseKernel 5).toNat
    morphClose (morphOpen thresh openKernelSize) closeKernelSize

/-- Outer ring band around the part outline (method buildOuterRingMask): the
union of the two part masks XOR'd with its erosion by the ring kernel; if the
erosion empties the union, the union itself is returned. -/
def buildOuterRingMask (d : GoCVDetector) (baseMask currentMask : Mat01) : Mat01 :=
  if baseMask.isEmptyMat || currentMask.isEmptyMat then newMat
  else
    let unionMask := bitwiseOr baseMask currentMask
    if unionMask.isEmptyMat || unionMask.countNonZero == 0 then unionMask
    else
      let kernelSize := (normalizeKernelSize d.GeometryRingKernel 41).toNat
      let eroded := erodeMat unionMask kernelSize
      if eroded.isEmptyMat || eroded.countNonZero == 0 then unionMask
      else bitwiseXor unionMask eroded

/-- Count of set mask pixels inside a clipped rectangle, the Region plus
CountNonZero combination of overlapRatioForDefect. -/
def countInRect (m : Mat01) (x1 y1 x2 y2 : Int) : Nat :=
  (List.range m.h).foldl
    (fun acc y => acc +
      (List.range m.w).countP fun x =>
        decide (x1 ≤ Int.ofNat x ∧ Int.ofNat x < x2 ∧ y1 ≤ Int.ofNat y ∧ Int.ofNat y < y2)
          && m.px x y)
    0

/-- Fraction of a defect's (frame-clipped) box covered by the mask (function
overlapRatioForDefect). -/
def overlapFracForDefect (defect : DefectArea) (mask : Mat01) : ℚ :=
  if mask.isEmptyMat || defect.Width ≤ 0 || defect.Height ≤ 0 then 0
  else
    let x1 := maxInt defect.X 0
    let y1 := maxInt defect.Y 0
    let x2 := minInt (defect.X + defect.Width) (mask.w : Int)
    let y2 := minInt (defect.Y + defect.Height) (mask.h : Int)
    if x2 ≤ x1 ∨ y2 ≤ y1 then 0
    else
      let maskPixels := countInRect mask x1 y1 x2 y2
      let area := (x2 - x1) * (y2 - y1)
      if area ≤ 0 then 0 else (maskPixels : ℚ) / (area : ℚ)

/-- Structural-branch overlap filter (method filterDefectsByMaskOverlap):
require each candidate's box to overlap the structural mask by the given
fraction; a missing or empty mask leaves the list unchanged. -/
def filterDefectsByMaskOverlap (defects : List DefectArea) (mask : Mat01)
    (minOverlap : ℚ) : List DefectArea :=
  if defects.length = 0 || mask.isEmptyMat || mask.countNonZero == 0 then defects
  else defects.filterMap fun defect =>
    if overlapFracForDefect defect mask ≥ minOverlap
    then some { defect with Reason := appendReason defect.Reason "broken_overlap" }
    else none

/-- Shape family tags of the geometry detector (the shapeFamily string
constants of the source, as a closed enumeration). -/
inductive shapeFamily where
  | unknown
  | round
  | polygon
  | toothed
deriving DecidableEq, BEq

/-- Shape-family classifier (function determineShapeFamily): toothed when the
concavity count reaches the configured minimum; else round when circularity
reaches the round minimum; else polygon when the vertex count lies in [3,12]
and circularity and extent reach their minimums; else unknown. -/
def determineShapeFamily (concavity vertices : Int) (circularity extent : ℚ)
    (minConcavity : Int) (roundMinCircularity polygonMinCircularity polygonMinExtent : ℚ) :
    shapeFamily :=
  if concavity ≥ minConcavity then .toothed
  else if circularity ≥ roundMinCircularity then .round
  else if vertices ≥ 3 ∧ vertices ≤ 12 ∧ circularity ≥ polygonMinCircularity ∧ extent ≥ polygonMinExtent then .polygon
  else .unknown

/-- Measured descriptor values of one contour, the numbers the OpenCV calls of
describeContourShape produce (concavity count, simplified vertex count,
circularity, extent, area, perimeter); passed in as data since contour
analysis itself is outside the embedding. -/
structure contourShapeVals where
  concavity : Int
  vertices : Int
  circularity : ℚ
  extent : ℚ
  area : ℚ
  perimeter : ℚ

/-- Shape descriptor of one contour (struct shapeDescriptor). -/
structure shapeDescriptor where
  family : shapeFamily
  concavity : Int
  vertices : Int
  circularity : ℚ
  extent : ℚ
  area : ℚ
  perimeter : ℚ

/-- Descriptor assembly of describeContourShape: classify the measured values
into a family and record them. -/
def describeContourShape (v : contourShapeVals) (minConcavity : Int)
    (roundMinCircularity polygonMinCircularity polygonMinExtent : ℚ) : shapeDescriptor :=
  { family := determineShapeFamily v.concavity v.vertices v.circularity v.extent
      minConcavity roundMinCircularity polygonMinCircularity polygonMinExtent
    concavity := v.concavity
    vertices := v.vertices
    circularity := v.circularity
    extent := v.extent
    area := v.area
    perimeter := v.perimeter }

/-- Contour-analysis results feeding detectGeometryMismatch: whether
largestContourCopy succeeded on each mask, the measured descriptor values of
each largest contour, and the gocv.MatchShapes score. -/
structure geometryOracle where
  baseFound : Bool
  currentFound : Bool
  baseVals : contourShapeVals
  currentVals : contourShapeVals
  shapeScore : ℚ

/-- Evidence-mask construction of detectGeometryMismatch (source lines after
the mismatch decision): the XOR of the part masks; if non-empty, it is
post-processed and restricted to the outer ring band, returning the
post-processed XOR when the band is empty and a fresh empty mask when the
restriction is empty. -/
def geometryEvidenceMask (d : GoCVDetector) (baseMask currentMask : Mat01) : Mat01 :=
  let shapeMask := bitwiseXor baseMask currentMask
  if shapeMask.isEmptyMat || shapeMask.countNonZero == 0 then shapeMask
  else
    let cleanedShapeMask := postProcessDiffMask d shapeMask
    let outerRingMask := buildOuterRingMask d baseMask currentMask
    if outerRingMask.isEmptyMat || outerRingMask.countNonZero == 0 then cleanedShapeMask
    else
      let focusedShapeMask := bitwiseAnd cleanedShapeMask outerRingMask
      if focusedShapeMask.isEmptyMat || focusedShapeMask.countNonZero == 0 then newMat
      else focusedShapeMask

/-- Geometry mismatch detector (method detectGeometryMismatch): classify both
largest contours, fire on any of the five mismatch rules, and build the
evidence mask from the XOR of the part masks, post-processed and restricted
to the outer ring band, with the source's fallbacks when masks come out
empty. Reason strings carry the fired rule's code; the numeric log detail of
the source's reason string is not modelled. -/
def detectGeometryMismatch (d : GoCVDetector) (g : geometryOracle)
    (baseMask currentMask : Mat01) : Bool × Mat01 × String :=
  if !d.EnableGeometryCheck then (false, newMat, "")
  else if baseMask.isEmptyMat || currentMask.isEmptyMat
      || baseMask.h != currentMask.h || baseMask.w != currentMask.w then (false, newMat, "")
  else if !g.baseFound then (false, newMat, "")
  else if !g.currentFound then (false, newMat, "")
  else
    let baseShape := describeContourShape g.baseVals d.GeometryMinConcavity
      d.GeometryRoundMinCircularity d.GeometryPolygonMinCircularity d.GeometryPolygonMinExtent
    let currentShape := describeContourShape g.currentVals d.GeometryMinConcavity
      d.GeometryRoundMinCircularity d.GeometryPolygonMinCircularity d.GeometryPolygonMinExtent
    let shapeScore := g.shapeScore
    let concavityGap := absInt (baseShape.concavity - currentShape.concavity)
    let vertexGap := absInt (baseShape.vertices - currentShape.vertices)
    let circularityGap := |baseShape.circularity - currentShape.circularity|
    let familyMismatch := baseShape.family != shapeFamily.unknown
      && currentShape.family != shapeFamily.unknown
      && baseShape.family != currentShape.family
    let mismatchByToothed := baseShape.family == shapeFamily.toothed
      && currentShape.family == shapeFamily.toothed
      && decide (concavityGap ≥ d.GeometryMinConcavityGap)
    let mismatchByPolygon := baseShape.family == shapeFamily.polygon
      && currentShape.family == shapeFamily.polygon
      && decide (baseShape.vertices > 0) && decide (currentShape.vertices > 0)
      && decide (baseShape.vertices ≤ 12) && decide (currentShape.vertices ≤ 12)
      && decide (vertexGap ≥ d.GeometryPolygonVertexGap)
    let mismatchByRound := baseShape.family == shapeFamily.round
      && currentShape.family == shapeFamily.round
      && decide (circularityGap ≥ d.GeometryRoundMaxCircularityGap)
    let mismatchByToothedShape := baseShape.family == shapeFamily.toothed
      && currentShape.family == shapeFamily.toothed
      && decide (concavityGap ≥ 1) && decide (shapeScore > d.GeometryMatchMaxScore)
    let mismatch := familyMismatch || mismatchByToothed || mismatchByPolygon
      || mismatchByRound || mismatchByToothedShape
    if !mismatch then (false, newMat, "")
    else
      let reasonCode :=
        if mismatchByToothed then "tooth_count"
        else if mismatchByPolygon then "polygon_vertices"
        else if mismatchByRound then "round_profile"
        else if mismatchByToothedShape then "toothed_shape"
        else "shape_family"
      let reason := "geometry_mismatch reason=" ++ reasonCode
      (true, geometryEvidenceMask d baseMask currentMask, reason)

/-- Failure categories of the quality gate, abstracting the reason strings of
checkImageQuality (each constructor corresponds to one return site; the
human-readable text with interpolated metric values is not modelled). -/
inductive QualityError where
  | emptyImage
  | tooSmall
  | emptyROI
  | blurry
  | overexposed
  | underexposed
  | invalidHSV
  | glare
deriving DecidableEq, BEq

/-- Photometric measurements feeding checkImageQuality, the values the OpenCV
calls of the source would produce on the decoded image: dimensions,
allocation-emptiness of the interior ROI mask, its pixel count, and the
edge/exposure/glare ratios measured inside the ROI, plus the HSV channel
count. -/
structure QualityInputs where
  matEmpty : Bool
  cols : Int
  rows : Int
  qualityMaskEmpty : Bool
  roiArea : Int
  edgeFrac : ℚ
  overexposedFrac : ℚ
  underexposedFrac : ℚ
  hsvChannels : Int
  glareFrac : ℚ

/-- ROI coverage fraction as the source computes it: ROI pixel count over
frame area when the frame is non-degenerate, 1 otherwise. -/
def roiFracOf (q : QualityInputs) : ℚ :=
  if q.rows * q.cols > 0 then (q.roiArea : ℚ) / ((q.rows * q.cols : Int) : ℚ) else 1

/-- Quality gate (method checkImageQuality): size check, ROI check, sharpness
check, exposure checks, HSV validity and glare check, in source order; when
the ROI covers more than ninety percent of the frame the photometric gate is
relaxed (exposure and glare are skipped and the sharpness floor is scaled by
thirty-five hundredths). -/
def checkImageQuality (d : GoCVDetector) (q : QualityInputs) (glareLimit : ℚ) :
    Option QualityError :=
  if q.matEmpty then some .emptyImage
  else if q.cols < d.MinImageSide || q.rows < d.MinImageSide then some .tooSmall
  else if q.qualityMaskEmpty || q.roiArea == 0 then some .emptyROI
  else
    let relaxedPhotometricGate := roiFracOf q > 90/100
    let minEdgeFrac := if relaxedPhotometricGate
      then d.MinSharpnessEdgeFrac * (35/100) else d.MinSharpnessEdgeFrac
    if q.edgeFrac < minEdgeFrac then some .blurry
    else if !relaxedPhotometricGate && decide (q.overexposedFrac > d.MaxOverexposedFrac) then
      some .overexposed
    else if !relaxedPhotometricGate && decide (q.underexposedFrac > d.MaxUnderexposedFrac) then
      some .underexposed
    else if q.hsvChannels < 3 then some .invalidHSV
    else if !relaxedPhotometricGate && decide (q.glareFrac > glareLimit) then some .glare
    else none

/-- Grayscale pixel buffer (one byte per pixel in the source). -/
structure GrayMat where
  w : Nat
  h : Nat
  px : Nat → Nat → Nat

/-- Fixed binary thresholding, gocv.Threshold with ThresholdBinary: a pixel
becomes 255 when strictly above the threshold value, 0 otherwise. -/
def thresholdBinary (src : GrayMat) (thresh : ℚ) : GrayMat :=
  ⟨src.w, src.h, fun x y => if (src.px x y : ℚ) > thresh then 255 else 0⟩

/-- Thresholding step of InspectDiff's differencing stage: apply the Otsu
threshold (whose value, computed from the blurred difference image by OpenCV,
is passed in), and when that value falls below DiffMinThreshold re-threshold
with the fixed DiffMinThreshold instead. -/
def diffThresholdStage (d : GoCVDetector) (blur : GrayMat) (otsuThreshold : ℚ) : GrayMat :=
  let thresh := thresholdBinary blur otsuThreshold
  if otsuThreshold < d.DiffMinThreshold then thresholdBinary blur d.DiffMinThreshold
  else thresh

/-- Integer rectangle in Go's image.Rectangle representation. -/
structure GoRect where
  minX : Int
  minY : Int
  maxX : Int
  maxY : Int
deriving DecidableEq, BEq

/-- Rectangle width, image.Rectangle.Dx. -/
def GoRect.Dx (r : GoRect) : Int := r.maxX - r.minX

/-- Rectangle height, image.Rectangle.Dy. -/
def GoRect.Dy (r : GoRect) : Int := r.maxY - r.minY

/-- Scale data computed by the coarse phase of alignCurrentToBase. -/
structure CoarseAlign where
  scaleX : ℚ
  scaleY : ℚ
  resizedW : Int
  resizedH : Int
deriving DecidableEq, BEq

/-- Coarse phase of alignCurrentToBase, up to the resize of the current
image: from the bounding rectangles of the two masks' largest contours
(found upstream by largestMaskRect and passed in), derive the horizontal and
vertical scales from the rectangle dimension ratios and the resized
dimensions of the current image; none models the error returns for
degenerate rectangles or non-positive scales. -/
def alignCurrentToBaseCoarse (baseRect currentRect : GoRect)
    (currentCols currentRows : Int) : Option CoarseAlign :=
  if baseRect.Dx ≤ 0 ∨ baseRect.Dy ≤ 0 ∨ currentRect.Dx ≤ 0 ∨ currentRect.Dy ≤ 0 then none
  else if (baseRect.Dx : ℚ) / (currentRect.Dx : ℚ) ≤ 0
      ∨ (baseRect.Dy : ℚ) / (currentRect.Dy : ℚ) ≤ 0 then none
  else some ⟨(baseRect.Dx : ℚ) / (currentRect.Dx : ℚ), (baseRect.Dy : ℚ) / (currentRect.Dy : ℚ),
    maxInt 1 (truncInt ((currentCols : ℚ) * ((baseRect.Dx : ℚ) / (currentRect.Dx : ℚ)))),
    maxInt 1 (truncInt ((currentRows : ℚ) * ((baseRect.Dy : ℚ) / (currentRect.Dy : ℚ))))⟩

/-- Union of two rectangles (function unionRect). -/
def unionRect (a b : GoRect) : GoRect :=
  ⟨minInt a.minX b.minX, minInt a.minY b.minY, maxInt a.maxX b.maxX, maxInt a.maxY b.maxY⟩

/-- Bounding rectangle of one contour. -/
def Contour.rect (c : Contour) : GoRect :=
  ⟨c.rectX, c.rectY, c.rectX + c.rectW, c.rectY + c.rectH⟩

/-- Merged bounding rectangle of the significant contours of a mask
(function unionRectForMask), over the contour list the oracle supplies for
that mask. -/
def unionRectForMask (contours : List Contour) (minArea : ℚ) : Option GoRect :=
  contours.foldl
    (fun (acc : Option GoRect) (c : Contour) =>
      if c.contourArea < minArea then acc
      else if GoRect.Dx c.rect ≤ 0 ∨ GoRect.Dy c.rect ≤ 0 then acc
      else match acc with
        | none => some c.rect
        | some r => some (unionRect r c.rect))
    none

/-- Candidate generation from an arbitrary mask (method defectsFromMask). -/
def defectsFromMask (d : GoCVDetector) (contoursOf : Mat01 → List Contour) (mask : Mat01)
    (imageWidth imageHeight : Int) (reasonTag : String) : List DefectArea :=
  if mask.isEmptyMat || mask.countNonZero == 0 then []
  else extractDefectsFromContours d (contoursOf mask) imageWidth imageHeight reasonTag

/-- Single union-box candidate of the geometry branch (method
buildGeometryMismatchDefects): merge the significant components of the
evidence mask into one bounding rectangle. -/
def buildGeometryMismatchDefects (d : GoCVDetector) (contoursOf : Mat01 → List Contour)
    (mask : Mat01) (imageWidth imageHeight : Int) (reason : String) : List DefectArea :=
  if mask.isEmptyMat || mask.countNonZero == 0 then []
  else
    (unionRectForMask (contoursOf mask)
        (((imageWidth * imageHeight : Int) : ℚ) * d.MinContourAreaFrac)).elim []
      fun rect =>
        if rect.Dx ≤ 0 ∨ rect.Dy ≤ 0 then []
        else [{ X := rect.minX, Y := rect.minY, Width := rect.Dx, Height := rect.Dy,
                Area := rect.Dx * rect.Dy,
                Reason := appendReason reason "geometry_mask_union" }]

/-- Ghost tag recording which return site of InspectDiff produced the result:
the geometry branch's early return, or the structural/plain-diff path at the
end of the function. -/
inductive DiffBranch where
  | geometry
  | structuralDiff
deriving DecidableEq, BEq

/-- Inputs of the decision tail of InspectDiff (source lines after the
thresholded diff is cleaned): the common target dimensions, the two part
masks, the interior ROI mask and cleaned diff mask computed upstream, the
broken-part detector's result (its component analysis is outside the
embedding), the geometry oracle, and the contour extractor. -/
structure DiffTailCtx where
  targetW : Int
  targetH : Int
  baseMask : Mat01
  currentMaskForROI : Mat01
  innerROIMask : Mat01
  cleanedThresh : Mat01
  brokenMode : Bool
  structuralMask : Mat01
  geo : geometryOracle
  contoursOf : Mat01 → List Contour

/-- Result record constructor shared by every return site of Inspect and
InspectDiff: HasDefects is the non-emptiness of the defect list. -/
def mkResult (w h : Int) (defects : List DefectArea) : InspectionResult :=
  { ImageWidth := w, ImageHeight := h, Defects := defects,
    HasDefects := decide (defects.length > 0) }

/-- Geometry early-return branch of InspectDiff: restrict the geometry
evidence mask to the interior ROI when that restriction is non-empty, and
build the single union-box candidate from it. -/
def inspectDiffGeometryBranch (d : GoCVDetector) (c : DiffTailCtx)
    (geometryMask : Mat01) (geometryReason : String) : InspectionResult :=
  let maskedGeometry := bitwiseAnd geometryMask c.innerROIMask
  let geometryInput :=
    if !c.innerROIMask.isEmptyMat && !geometryMask.isEmptyMat
        && !maskedGeometry.isEmptyMat && decide (maskedGeometry.countNonZero > 0)
    then maskedGeometry
    else geometryMask
  mkResult c.targetW c.targetH
    (buildGeometryMismatchDefects d c.contoursOf geometryInput c.targetW c.targetH geometryReason)

/-- Structural/plain-diff path of InspectDiff: extract candidates from the
ROI-restricted cleaned diff mask; when the broken-part detector triggered,
apply the overlap filter, nearby-merge and dominant filter, falling back to
candidates generated directly from the structural mask when the chain keeps
nothing. -/
def inspectDiffStructuralBranch (d : GoCVDetector) (c : DiffTailCtx)
    (structuralInput : Mat01) : InspectionResult :=
  let threshInput :=
    if !c.innerROIMask.isEmptyMat then bitwiseAnd c.cleanedThresh c.innerROIMask
    else c.cleanedThresh
  let diffDefects := extractDefectsFromContours d (c.contoursOf threshInput)
    c.targetW c.targetH "diff_contour"
  let defects :=
    if c.brokenMode then
      let afterOverlap := filterDefectsByMaskOverlap diffDefects structuralInput
        d.BrokenMinOverlapFrac
      let afterMerge := mergeNearbyDefects afterOverlap d.BrokenMergeDistance
      let afterDominant := keepDominantBrokenDefects afterMerge d.BrokenDominantMinFrac
      if afterDominant.length = 0 then
        let fallback := defectsFromMask d c.contoursOf structuralInput
          c.targetW c.targetH "broken_structural_mask"
        let fallbackMerged := mergeNearbyDefects fallback d.BrokenMergeDistance
        keepDominantBrokenDefects fallbackMerged d.BrokenDominantMinFrac
      else afterDominant
    else diffDefects
  mkResult c.targetW c.targetH defects

/-- Decision tail of InspectDiff: restrict the structural mask to the
interior ROI, run the geometry detector, take the geometry early return only
when the geometry detector triggers and the broken-part detector does not,
and otherwise run the structural/plain-diff path. The second component tags
which return site produced the result. -/
def inspectDiffTail (d : GoCVDetector) (c : DiffTailCtx) : InspectionResult × DiffBranch :=
  let structuralInput :=
    if c.brokenMode && !c.innerROIMask.isEmptyMat && !c.structuralMask.isEmptyMat
    then bitwiseAnd c.structuralMask c.innerROIMask
    else c.structuralMask
  let geoRes := detectGeometryMismatch d c.geo c.baseMask c.currentMaskForROI
  if geoRes.1 && !c.brokenMode then
    (inspectDiffGeometryBranch d c geoRes.2.1 geoRes.2.2, .geometry)
  else
    (inspectDiffStructuralBranch d c structuralInput, .structuralDiff)

/-- Result-building tail of the single-image Inspect: extract edge-based
candidates from the contours of the masked edge map and package them. -/
def inspectTail (d : GoCVDetector) (contours : List Contour) (cols rows : Int) :
    InspectionResult :=
  mkResult cols rows (extractDefectsFromContours d contours cols rows "edge_contour")

theorem maxInt_comm (a b : Int) : maxInt a b = maxInt b a := by
  unfold maxInt; split_ifs <;> omega

theorem minInt_comm (a b : Int) : minInt a b = minInt b a := by
  unfold minInt; split_ifs <;> omega

theorem intersectionArea_comm (a b : DefectArea) :
    intersectionArea a b = intersectionArea b a := by
  simp only [intersectionArea]
  rw [maxInt_comm a.X b.X, maxInt_comm a.Y b.Y,
    minInt_comm (a.X + a.Width) (b.X + b.Width), minInt_comm (a.Y + a.Height) (b.Y + b.Height)]

theorem boxIoU_comm (a b : DefectArea) : boxIoU a b = boxIoU b a := by
  simp only [boxIoU]
  rw [intersectionArea_comm a b, Int.add_comm a.Area b.Area]

/-- C5: Shape-family classification is a pure function of the four measured
descriptors with the fixed decision order of the source: toothed when the
concavity count reaches the concavity threshold; otherwise round when
circularity reaches the round threshold; otherwise polygon when the vertex
count is in [3,12] and circularity and extent reach their minimums;
otherwise unknown. Each family is characterized exactly. -/
theorem determineShapeFamily_spec (concavity vertices : Int) (circularity extent : ℚ)
    (minConcavity : Int) (roundMinCircularity polygonMinCircularity polygonMinExtent : ℚ) :
    (determineShapeFamily concavity vertices circularity extent minConcavity
        roundMinCircularity polygonMinCircularity polygonMinExtent = .toothed
      ↔ concavity ≥ minConcavity)
    ∧ (determineShapeFamily concavity vertices circularity extent minConcavity
        roundMinCircularity polygonMinCircularity polygonMinExtent = .round
      ↔ concavity < minConcavity ∧ circularity ≥ roundMinCircularity)
    ∧ (determineShapeFamily concavity vertices circularity extent minConcavity
        roundMinCircularity polygonMinCircularity polygonMinExtent = .polygon
      ↔ concavity < minConcavity ∧ circularity < roundMinCircularity
        ∧ vertices ≥ 3 ∧ vertices ≤ 12 ∧ circularity ≥ polygonMinCircularity
        ∧ extent ≥ polygonMinExtent)
    ∧ (determineShapeFamily concavity vertices circularity extent minConcavity
        roundMinCircularity polygonMinCircularity polygonMinExtent = .unknown
      ↔ concavity < minConcavity ∧ circularity < roundMinCircularity
        ∧ ¬(vertices ≥ 3 ∧ vertices ≤ 12 ∧ circularity ≥ polygonMinCircularity
            ∧ extent ≥ polygonMinExtent)) := by
  unfold determineShapeFamily
  split_ifs with h1 h2 h3 <;>
    simp_all [not_le, not_and, not_lt]

/-- C7: In InspectDiff's differencing stage, the blurred absolute difference
is thresholded with the automatic Otsu threshold, and whenever the Otsu value
falls below DiffMinThreshold the difference is re-thresholded with the fixed
DiffMinThreshold instead; stated per pixel of the resulting mask. -/
theorem diffThresholdStage_spec (d : GoCVDetector) (blur : GrayMat) (otsuThreshold : ℚ)
    (x y : Nat) :
    (otsuThreshold < d.DiffMinThreshold →
      (diffThresholdStage d blur otsuThreshold).px x y
        = (if (blur.px x y : ℚ) > d.DiffMinThreshold then 255 else 0))
    ∧ (d.DiffMinThreshold ≤ otsuThreshold →
      (diffThresholdStage d blur otsuThreshold).px x y
        = (if (blur.px x y : ℚ) > otsuThreshold then 255 else 0)) := by
  unfold diffThresholdStage thresholdBinary
  constructor
  · intro h
    simp [h]
  · intro h
    simp [not_lt.mpr h]

/-- Witness for the differencing-stage theorem: with the default profile, an
Otsu value of 5 falls below the floor of 22, and a blurred-difference pixel
of value 30 is set by the fixed re-threshold. -/
theorem diffThresholdStage_spec_witness :
    (5 : ℚ) < NewGoCVDetector.DiffMinThreshold
    ∧ (diffThresholdStage NewGoCVDetector ⟨1, 1, fun _ _ => 30⟩ 5).px 0 0 = 255 := by
  constructor
  · decide
  · rw [(diffThresholdStage_spec NewGoCVDetector ⟨1, 1, fun _ _ => 30⟩ 5 0 0).1 (by decide)]
    decide

/-- C9: Every InspectionResult built by the single-image Inspect tail and by
the InspectDiff decision tail has HasDefects true exactly when its defect
list is non-empty. -/
theorem mkResult_hasDefects_iff (w h : Int) (l : List DefectArea) :
    (mkResult w h l).HasDefects = true ↔ (mkResult w h l).Defects ≠ [] := by
  simp [mkResult, List.length_pos]

theorem inspectionResult_hasDefects_iff (d : GoCVDetector) (contours : List Contour)
    (cols rows : Int) (c : DiffTailCtx) :
    ((inspectTail d contours cols rows).HasDefects = true
      ↔ (inspectTail d contours cols rows).Defects ≠ [])
    ∧ ((inspectDiffTail d c).1.HasDefects = true ↔ (inspectDiffTail d c).1.Defects ≠ []) := by
  constructor
  · exact mkResult_hasDefects_iff cols rows _
  · cases hC : ((detectGeometryMismatch d c.geo c.baseMask c.currentMaskForROI).1 && !c.brokenMode) with
    | false =>
        simp only [inspectDiffTail, hC, Bool.false_eq_true, if_false]
        exact mkResult_hasDefects_iff _ _ _
    | true =>
        simp only [inspectDiffTail, hC, eq_self_iff_true, if_true]
        exact mkResult_hasDefects_iff _ _ _

/-- C1: In the InspectDiff decision tail, the structural branch takes
precedence over the geometry branch: whenever both the broken-part detector
and the geometry-mismatch detector trigger, the result comes from the
structural/diff return site, and the geometry early return is taken exactly
when the geometry detector triggers and the broken-part detector does not. -/
theorem inspectDiffTail_structural_precedence (d : GoCVDetector) (c : DiffTailCtx) :
    (c.brokenMode = true
        ∧ (detectGeometryMismatch d c.geo c.baseMask c.currentMaskForROI).1 = true →
      (inspectDiffTail d c).2 = DiffBranch.structuralDiff)
    ∧ ((inspectDiffTail d c).2 = DiffBranch.geometry
      ↔ (detectGeometryMismatch d c.geo c.baseMask c.currentMaskForROI).1 = true
        ∧ c.brokenMode = false) := by
  cases hb : c.brokenMode <;>
    cases hg : (detectGeometryMismatch d c.geo c.baseMask c.currentMaskForROI).1 <;>
      simp [inspectDiffTail, hb, hg]

theorem mergeNearbyDefects_length_le :
    ∀ (n : Nat) (defects : List DefectArea), defects.length ≤ n →
      ∀ distance : Int, (mergeNearbyDefects defects distance).length ≤ defects.length := by
  intro n
  induction n with
  | zero =>
    intro l hl dist
    unfold mergeNearbyDefects
    have h2 : l.length < 2 := by omega
    simp [h2]
  | succ n ih =>
    intro l hl dist
    unfold mergeNearbyDefects
    by_cases h2 : l.length < 2
    · simp [h2]
    · simp only [h2, if_false]
      by_cases hm : (mergeOnePass l (if dist < 0 then 0 else dist)).length = l.length
      · simp [hm]
      · simp only [hm, dif_neg, not_false_iff]
        have hlt : (mergeOnePass l (if dist < 0 then 0 else dist)).length < l.length :=
          lt_of_le_of_ne (mergeOnePass_length l _) hm
        have hrec := ih (mergeOnePass l (if dist < 0 then 0 else dist)) (by omega) dist
        omega

/-- C10: mergeNearbyDefects terminates on every finite list: a merge pass
never lengthens the list, the recursive call happens only when the pass
strictly shortened it (so the length strictly decreases across recursive
calls, which is the well-founded measure of the definition), and the fixpoint
is no longer than the input. -/
theorem mergeNearbyDefects_terminates (defects : List DefectArea) (distance : Int) :
    (mergeOnePass defects (if distance < 0 then 0 else distance)).length ≤ defects.length
    ∧ ((mergeOnePass defects (if distance < 0 then 0 else distance)).length ≠ defects.length →
        (mergeOnePass defects (if distance < 0 then 0 else distance)).length < defects.length)
    ∧ (mergeNearbyDefects defects distance).length ≤ defects.length :=
  ⟨mergeOnePass_length _ _, fun h => lt_of_le_of_ne (mergeOnePass_length _ _) h,
    mergeNearbyDefects_length_le defects.length defects le_rfl distance⟩

/-- Overlapping pair used to exercise the merge pass. -/
def mergeWitnessA : DefectArea := ⟨0, 0, 10, 10, 100, ""⟩

/-- Second overlapping box of the merge-pass example. -/
def mergeWitnessB : DefectArea := ⟨5, 5, 10, 10, 100, ""⟩

unseal Rat.mul Rat.inv Rat.add Rat.sub in
/-- Witness for the termination theorem: on two overlapping boxes one pass
merges them, so the pass output is strictly shorter than its input. -/
theorem mergeNearbyDefects_terminates_witness :
    (mergeOnePass [mergeWitnessA, mergeWitnessB] (if (0 : Int) < 0 then 0 else 0)).length
      ≠ ([mergeWitnessA, mergeWitnessB] : List DefectArea).length
    ∧ (mergeOnePass [mergeWitnessA, mergeWitnessB] (if (0 : Int) < 0 then 0 else 0)).length
      < ([mergeWitnessA, mergeWitnessB] : List DefectArea).length :=
  ⟨by decide, (mergeNearbyDefects_terminates [mergeWitnessA, mergeWitnessB] 0).2.1 (by decide)⟩

/-- Base-mask rectangle of the anisotropic-scale example: 100 wide, 50 tall. -/
def baseRectC4 : GoRect := ⟨0, 0, 100, 50⟩

/-- Current-mask rectangle of the anisotropic-scale example: 50 by 50. -/
def currentRectC4 : GoRect := ⟨0, 0, 50, 50⟩

unseal Rat.mul Rat.inv Rat.add Rat.sub in
/-- C4 counterexample: coarse alignment reaches the resize step with a
horizontal factor of 2 and a vertical factor of 1 on these rectangles, so
the claim that one uniform scale is applied (equal horizontal and vertical
resize factors) is false on the code. -/
theorem alignCoarse_counterexample :
    alignCurrentToBaseCoarse baseRectC4 currentRectC4 50 50 = some ⟨2, 1, 100, 50⟩
    ∧ ((2 : ℚ) ≠ (1 : ℚ)) :=
  ⟨by decide, by norm_num⟩

/-- C4 amended: coarse alignment derives an independent horizontal scale
from the width ratio and vertical scale from the height ratio of the two
mask rectangles and resizes width and height by those respective factors;
the two factors coincide exactly when the rectangles have proportional
dimensions. -/
theorem alignCoarse_spec (baseRect currentRect : GoRect) (currentCols currentRows : Int)
    (r : CoarseAlign)
    (h : alignCurrentToBaseCoarse baseRect currentRect currentCols currentRows = some r) :
    r.scaleX = (baseRect.Dx : ℚ) / (currentRect.Dx : ℚ)
    ∧ r.scaleY = (baseRect.Dy : ℚ) / (currentRect.Dy : ℚ)
    ∧ r.resizedW = maxInt 1 (truncInt ((currentCols : ℚ) * r.scaleX))
    ∧ r.resizedH = maxInt 1 (truncInt ((currentRows : ℚ) * r.scaleY))
    ∧ (r.scaleX = r.scaleY
        ↔ (baseRect.Dx : ℚ) * (currentRect.Dy : ℚ) = (baseRect.Dy : ℚ) * (currentRect.Dx : ℚ)) := by
  unfold alignCurrentToBaseCoarse at h
  split_ifs at h with h1 h2
  push_neg at h1
  obtain ⟨hbx, hby, hcx, hcy⟩ := h1
  cases h
  refine ⟨rfl, rfl, rfl, rfl, ?_⟩
  show (baseRect.Dx : ℚ) / (currentRect.Dx : ℚ) = (baseRect.Dy : ℚ) / (currentRect.Dy : ℚ) ↔ _
  rw [div_eq_div_iff (Int.cast_ne_zero.mpr (by omega)) (Int.cast_ne_zero.mpr (by omega))]

/-- Base-mask rectangle of the proportional example. -/
def baseRectC4w : GoRect := ⟨0, 0, 10, 10⟩

/-- Current-mask rectangle of the proportional example. -/
def currentRectC4w : GoRect := ⟨0, 0, 5, 5⟩

/-- Coarse result of the proportional example. -/
def coarseC4w : CoarseAlign := ⟨2, 2, 40, 20⟩

unseal Rat.mul Rat.inv Rat.add Rat.sub in
/-- Witness of the amended coarse-alignment theorem at a concrete pair of
rectangles: the horizontal scale is the width ratio. -/
theorem alignCoarse_spec_witness :
    alignCurrentToBaseCoarse baseRectC4w currentRectC4w 20 10 = some coarseC4w
    ∧ coarseC4w.scaleX = (GoRect.Dx baseRectC4w : ℚ) / (GoRect.Dx currentRectC4w : ℚ) :=
  ⟨by decide, (alignCoarse_spec baseRectC4w currentRectC4w 20 10 coarseC4w (by decide)).1⟩

/-- Small-kernel profile shared by the concrete geometry examples: the
default profile with a 3-pixel close kernel and 5-pixel ring kernel so the
examples fit on a 5-by-5 grid. -/
def dSmall : GoCVDetector :=
  { NewGoCVDetector with DiffCloseKernel := 3, GeometryRingKernel := 5 }

/-- Base part mask of the geometry examples: a single pixel at (1,1). -/
def baseMask5 : Mat01 := ⟨5, 5, fun x y => x == 1 && y == 1⟩

/-- Current part mask of the geometry examples: a single pixel at (3,3). -/
def currentMask5 : Mat01 := ⟨5, 5, fun x y => x == 3 && y == 3⟩

/-- Shape oracle of the geometry examples: the base contour measures round,
the current contour measures polygon, so the family-mismatch rule fires. -/
def gOracle1 : geometryOracle :=
  { baseFound := true, currentFound := true
    baseVals := { concavity := 0, vertices := 0, circularity := 9/10, extent := 9/10,
                  area := 10, perimeter := 10 }
    currentVals := { concavity := 0, vertices := 4, circularity := 6/10, extent := 8/10,
                     area := 10, perimeter := 10 }
    shapeScore := 0 }

/-- InspectDiff tail context where both the broken-part mode and the
geometry detector trigger. -/
def ctxC1 : DiffTailCtx :=
  { targetW := 5, targetH := 5, baseMask := baseMask5, currentMaskForROI := currentMask5,
    innerROIMask := newMat, cleanedThresh := newMat, brokenMode := true,
    structuralMask := newMat, geo := gOracle1, contoursOf := fun _ => [] }

unseal Rat.mul Rat.inv Rat.add Rat.sub in
/-- Witness for the structural-precedence theorem: a context where both
detectors trigger, and the result comes from the structural/diff return
site. -/
theorem inspectDiffTail_structural_precedence_witness :
    ctxC1.brokenMode = true
    ∧ (detectGeometryMismatch dSmall ctxC1.geo ctxC1.baseMask ctxC1.currentMaskForROI).1 = true
    ∧ (inspectDiffTail dSmall ctxC1).2 = DiffBranch.structuralDiff :=
  ⟨rfl, by decide, (inspectDiffTail_structural_precedence dSmall ctxC1).1 ⟨rfl, by decide⟩⟩

theorem insertByAreaDesc_mem (x : DefectArea) (l : List DefectArea) (a : DefectArea) :
    a ∈ insertByAreaDesc x l ↔ a = x ∨ a ∈ l := by
  induction l with
  | nil => simp [insertByAreaDesc]
  | cons y ys ih =>
    unfold insertByAreaDesc
    split_ifs with h
    · simp
    · simp only [List.mem_cons, ih]
      tauto

theorem sortByAreaDesc_mem (l : List DefectArea) (a : DefectArea) :
    a ∈ sortByAreaDesc l ↔ a ∈ l := by
  induction l with
  | nil => simp [sortByAreaDesc]
  | cons x xs ih =>
    simp only [sortByAreaDesc, List.foldr_cons] at *
    rw [insertByAreaDesc_mem]
    simp [ih]

theorem insertByAreaDesc_pairwise (x : DefectArea) (l : List DefectArea)
    (h : List.Pairwise (fun e c => c.Area ≤ e.Area) l) :
    List.Pairwise (fun e c => c.Area ≤ e.Area) (insertByAreaDesc x l) := by
  induction l with
  | nil => simp [insertByAreaDesc]
  | cons y ys ih =>
    rw [List.pairwise_cons] at h
    obtain ⟨hy, hys⟩ := h
    unfold insertByAreaDesc
    split_ifs with hle
    · rw [List.pairwise_cons]
      refine ⟨?_, List.pairwise_cons.mpr ⟨hy, hys⟩⟩
      intro c hc
      rcases List.mem_cons.mp hc with rfl | hc'
      · exact hle
      · exact le_trans (hy c hc') hle
    · rw [List.pairwise_cons]
      refine ⟨?_, ih hys⟩
      intro c hc
      rcases (insertByAreaDesc_mem x ys c).mp hc with rfl | hc'
      · omega
      · exact hy c hc'

theorem sortByAreaDesc_pairwise (l : List DefectArea) :
    List.Pairwise (fun e c => c.Area ≤ e.Area) (sortByAreaDesc l) := by
  induction l with
  | nil => simp [sortByAreaDesc]
  | cons x xs ih =>
    simp only [sortByAreaDesc, List.foldr_cons] at *
    exact insertByAreaDesc_pairwise x _ ih

theorem nmsDrop_eq_false_iff (d : GoCVDetector) (kept : List DefectArea) (c : DefectArea) :
    nmsDrop d kept c = false
      ↔ ∀ e ∈ kept, boxIoU c e < d.NMSIoUThreshold ∧ boxContainment c e < d.NMSContainmentFrac := by
  simp [nmsDrop, not_le, not_or]

theorem nmsKeep_pairwise (d : GoCVDetector) : ∀ (l kept : List DefectArea),
    List.Pairwise (fun e c => boxIoU c e < d.NMSIoUThreshold
      ∧ boxContainment c e < d.NMSContainmentFrac) kept →
    List.Pairwise (fun e c => boxIoU c e < d.NMSIoUThreshold
      ∧ boxContainment c e < d.NMSContainmentFrac) (nmsKeep d kept l) := by
  intro l
  induction l with
  | nil => intro kept h; simpa [nmsKeep] using h
  | cons c rest ih =>
    intro kept h
    unfold nmsKeep
    split_ifs with hdrop
    · exact ih kept h
    · apply ih
      rw [List.pairwise_append]
      rw [Bool.not_eq_true] at hdrop
      refine ⟨h, List.pairwise_singleton _ _, ?_⟩
      intro x hx y hy
      have hc := (nmsDrop_eq_false_iff d kept c).mp hdrop x hx
      rw [List.mem_singleton] at hy
      rw [hy]
      exact hc

theorem nmsKeep_mem (d : GoCVDetector) : ∀ (l kept : List DefectArea) (x : DefectArea),
    x ∈ nmsKeep d kept l → x ∈ kept ∨ x ∈ l := by
  intro l
  induction l with
  | nil => intro kept x hx; simp [nmsKeep] at hx; exact Or.inl hx
  | cons c rest ih =>
    intro kept x hx
    unfold nmsKeep at hx
    split_ifs at hx with hdrop
    · rcases ih kept x hx with h | h
      · exact Or.inl h
      · exact Or.inr (List.mem_cons_of_mem c h)
    · rcases ih (kept ++ [c]) x hx with h | h
      · rcases List.mem_append.mp h with h' | h'
        · exact Or.inl h'
        · exact Or.inr (List.mem_cons.mpr (Or.inl (List.mem_singleton.mp h')))
      · exact Or.inr (List.mem_cons_of_mem c h)

theorem nmsKeep_pairwiseArea (d : GoCVDetector) : ∀ (l kept : List DefectArea),
    List.Pairwise (fun e c => c.Area ≤ e.Area) (kept ++ l) →
    List.Pairwise (fun e c => c.Area ≤ e.Area) (nmsKeep d kept l) := by
  intro l
  induction l with
  | nil => intro kept h; simpa [nmsKeep] using h
  | cons c rest ih =>
    intro kept h
    unfold nmsKeep
    split_ifs with hdrop
    · refine ih kept (List.Pairwise.sublist ?_ h)
      exact (List.sublist_cons_self c rest).append_left kept
    · refine ih (kept ++ [c]) ?_
      rw [List.append_assoc, List.singleton_append]
      exact h

/-- C2: deduplication sorts candidates by bounding-box area descending and
keeps a candidate only when its IoU stays below NMSIoUThreshold and its
one-sided containment stays below the containment threshold against every
already-kept candidate: the output is area-descending, every later kept box
is below both thresholds against every earlier kept box, every output box
comes from the input, and for a pair of boxes whose IoU is above
NMSIoUThreshold exactly one survives, of maximal area. -/
theorem suppressDuplicateDefects_spec (d : GoCVDetector) (l : List DefectArea)
    (a b : DefectArea) :
    (List.Pairwise (fun e c => c.Area ≤ e.Area) (suppressDuplicateDefects d l)
      ∧ List.Pairwise (fun e c => boxIoU c e < d.NMSIoUThreshold
          ∧ boxContainment c e < d.NMSContainmentFrac) (suppressDuplicateDefects d l)
      ∧ ∀ x ∈ suppressDuplicateDefects d l, x ∈ l)
    ∧ (d.NMSIoUThreshold < boxIoU a b →
        (suppressDuplicateDefects d [a, b]).length = 1
        ∧ ∀ x ∈ suppressDuplicateDefects d [a, b],
            (x = a ∨ x = b) ∧ x.Area = maxInt a.Area b.Area) := by
  constructor
  · by_cases hl : l.length < 2
    · rw [suppressDuplicateDefects, if_pos hl]
      match l, hl with
      | [], _ => simp
      | [x], _ => simp
    · rw [suppressDuplicateDefects, if_neg hl]
      refine ⟨?_, ?_, ?_⟩
      · exact nmsKeep_pairwiseArea d _ [] (by simpa using sortByAreaDesc_pairwise l)
      · exact nmsKeep_pairwise d _ [] (List.Pairwise.nil)
      · intro x hx
        rcases nmsKeep_mem d _ [] x hx with h | h
        · cases h
        · exact (sortByAreaDesc_mem l x).mp h
  · intro hIoU
    have hlen : ¬ ([a, b] : List DefectArea).length < 2 := by simp
    have hDropAB : nmsDrop d [a] b = true := by
      have : d.NMSIoUThreshold ≤ boxIoU b a := by
        rw [boxIoU_comm b a]; exact le_of_lt hIoU
      simp [nmsDrop, this]
    have hDropBA : nmsDrop d [b] a = true := by
      simp [nmsDrop, le_of_lt hIoU]
    by_cases hab : b.Area ≤ a.Area
    · have hsort : sortByAreaDesc [a, b] = [a, b] := by
        simp [sortByAreaDesc, insertByAreaDesc, hab]
      have hres : suppressDuplicateDefects d [a, b] = [a] := by
        rw [suppressDuplicateDefects, if_neg hlen, hsort]
        rw [show nmsKeep d [] [a, b] = nmsKeep d [a] [b] by simp [nmsKeep, nmsDrop]]
        rw [show nmsKeep d [a] [b] = nmsKeep d [a] [] by simp [nmsKeep, hDropAB]]
        rfl
      rw [hres]
      refine ⟨rfl, ?_⟩
      intro x hx
      rw [List.mem_singleton] at hx
      subst hx
      refine ⟨Or.inl rfl, ?_⟩
      unfold maxInt
      split_ifs <;> omega
    · have hsort : sortByAreaDesc [a, b] = [b, a] := by
        simp [sortByAreaDesc, insertByAreaDesc, hab]
      have hres : suppressDuplicateDefects d [a, b] = [b] := by
        rw [suppressDuplicateDefects, if_neg hlen, hsort]
        rw [show nmsKeep d [] [b, a] = nmsKeep d [b] [a] by simp [nmsKeep, nmsDrop]]
        rw [show nmsKeep d [b] [a] = nmsKeep d [b] [] by simp [nmsKeep, hDropBA]]
        rfl
      rw [hres]
      refine ⟨rfl, ?_⟩
      intro x hx
      rw [List.mem_singleton] at hx
      subst hx
      refine ⟨Or.inr rfl, ?_⟩
      unfold maxInt
      split_ifs <;> omega

/-- First box of the overlapping NMS example. -/
def nmsWitnessA : DefectArea := ⟨0, 0, 10, 10, 100, ""⟩

/-- Second box of the overlapping NMS example, shifted one pixel right. -/
def nmsWitnessB : DefectArea := ⟨1, 0, 10, 10, 100, ""⟩

unseal Rat.mul Rat.inv Rat.add Rat.sub in
/-- Witness for the deduplication theorem: the two overlapping boxes have IoU
9/11, above the default threshold, and exactly one survives. -/
theorem suppressDuplicateDefects_spec_witness :
    NewGoCVDetector.NMSIoUThreshold < boxIoU nmsWitnessA nmsWitnessB
    ∧ (suppressDuplicateDefects NewGoCVDetector [nmsWitnessA, nmsWitnessB]).length = 1 :=
  ⟨by decide,
    ((suppressDuplicateDefects_spec NewGoCVDetector [nmsWitnessA, nmsWitnessB]
      nmsWitnessA nmsWitnessB).2 (by decide)).1⟩

/-- Rectangle-area invariant of a defect candidate: the stored Area is the
width times height of its bounding box. -/
def rectAreaInv (x : DefectArea) : Prop := x.Area = x.Width * x.Height

theorem suppressDuplicateDefects_mem (d : GoCVDetector) (l : List DefectArea)
    (x : DefectArea) (hx : x ∈ suppressDuplicateDefects d l) : x ∈ l := by
  by_cases hl : l.length < 2
  · rw [suppressDuplicateDefects, if_pos hl] at hx
    exact hx
  · rw [suppressDuplicateDefects, if_neg hl] at hx
    rcases nmsKeep_mem d _ [] x hx with h | h
    · cases h
    · exact (sortByAreaDesc_mem l x).mp h

theorem contourCandidate_rectAreaInv (d : GoCVDetector) (minRectArea : Int)
    (minContourArea : ℚ) (tag : String) (c : Contour) (x : DefectArea)
    (hx : contourCandidate d minRectArea minContourArea tag c = some x) : rectAreaInv x := by
  unfold contourCandidate at hx
  split_ifs at hx
  cases hx
  rfl

theorem extractDefectsFromContours_rectAreaInv (d : GoCVDetector) (contours : List Contour)
    (imageWidth imageHeight : Int) (reasonTag : String) (x : DefectArea)
    (hx : x ∈ extractDefectsFromContours d contours imageWidth imageHeight reasonTag) :
    rectAreaInv x := by
  unfold extractDefectsFromContours at hx
  have hmem := suppressDuplicateDefects_mem d _ x hx
  obtain ⟨c, _, hc⟩ := List.mem_filterMap.mp hmem
  exact contourCandidate_rectAreaInv d _ _ _ c x hc

theorem unionDefectAreas_rectAreaInv (a b : DefectArea) :
    rectAreaInv (unionDefectAreas a b) := rfl

theorem tryMergeFirst_rectAreaInv (distance : Int) (current : DefectArea) :
    ∀ (acc l : List DefectArea), (∀ y ∈ acc, rectAreaInv y) →
      tryMergeFirst distance current acc = some l → ∀ x ∈ l, rectAreaInv x := by
  intro acc
  induction acc with
  | nil => intro l _ h; simp [tryMergeFirst] at h
  | cons m rest ih =>
    intro l hacc h
    by_cases hm : shouldMergeDefects m current distance
    · simp only [tryMergeFirst, hm, if_true] at h
      cases h
      intro x hx
      rcases List.mem_cons.mp hx with rfl | hx'
      · exact unionDefectAreas_rectAreaInv m current
      · exact hacc x (List.mem_cons_of_mem m hx')
    · simp only [tryMergeFirst, hm, if_false] at h
      obtain ⟨l', hl', rfl⟩ := Option.map_eq_some'.mp h
      intro x hx
      rcases List.mem_cons.mp hx with h' | hx'
      · rw [h']
        exact hacc m (List.mem_cons_self m rest)
      · exact ih l' (fun y hy => hacc y (List.mem_cons_of_mem m hy)) hl' x hx'

theorem mergeStep_rectAreaInv (distance : Int) (acc : List DefectArea)
    (current : DefectArea) (hacc : ∀ y ∈ acc, rectAreaInv y) (hcur : rectAreaInv current) :
    ∀ x ∈ mergeStep distance acc current, rectAreaInv x := by
  unfold mergeStep
  cases h : tryMergeFirst distance current acc with
  | none =>
    intro x hx
    rcases List.mem_append.mp hx with h' | h'
    · exact hacc x h'
    · rw [List.mem_singleton] at h'
      subst h'
      exact hcur
  | some l => exact tryMergeFirst_rectAreaInv distance current acc l hacc h

theorem mergeOnePass_rectAreaInv (distance : Int) :
    ∀ (l acc : List DefectArea), (∀ y ∈ acc, rectAreaInv y) → (∀ y ∈ l, rectAreaInv y) →
      ∀ x ∈ l.foldl (mergeStep distance) acc, rectAreaInv x := by
  intro l
  induction l with
  | nil => intro acc hacc _ x hx; exact hacc x hx
  | cons c rest ih =>
    intro acc hacc hl x hx
    rw [List.foldl_cons] at hx
    refine ih (mergeStep distance acc c) ?_ (fun y hy => hl y (List.mem_cons_of_mem c hy)) x hx
    exact mergeStep_rectAreaInv distance acc c hacc (hl c (List.mem_cons_self c rest))

theorem mergeNearbyDefects_rectAreaInv :
    ∀ (n : Nat) (defects : List DefectArea), defects.length ≤ n →
      ∀ (distance : Int), (∀ y ∈ defects, rectAreaInv y) →
        ∀ x ∈ mergeNearbyDefects defects distance, rectAreaInv x := by
  intro n
  induction n with
  | zero =>
    intro l hl dist hy x hx
    unfold mergeNearbyDefects at hx
    have h2 : l.length < 2 := by omega
    rw [if_pos h2] at hx
    exact hy x hx
  | succ n ih =>
    intro l hl dist hy x hx
    unfold mergeNearbyDefects at hx
    by_cases h2 : l.length < 2
    · rw [if_pos h2] at hx
      exact hy x hx
    · rw [if_neg h2] at hx
      have hpass : ∀ z ∈ mergeOnePass l (if dist < 0 then 0 else dist), rectAreaInv z :=
        fun z hz => mergeOnePass_rectAreaInv _ l [] (by simp) hy z hz
      by_cases hm : (mergeOnePass l (if dist < 0 then 0 else dist)).length = l.length
      · rw [dif_pos hm] at hx
        exact hpass x hx
      · rw [dif_neg hm] at hx
        have hlt : (mergeOnePass l (if dist < 0 then 0 else dist)).length < l.length :=
          lt_of_le_of_ne (mergeOnePass_length l _) hm
        exact ih _ (by omega) dist hpass x hx

theorem keepDominantBrokenDefects_rectAreaInv (defects : List DefectArea) (minRat : ℚ)
    (hy : ∀ y ∈ defects, rectAreaInv y) :
    ∀ x ∈ keepDominantBrokenDefects defects minRat, rectAreaInv x := by
  intro x hx
  simp only [keepDominantBrokenDefects] at hx
  split_ifs at hx
  all_goals first
  | exact hy x hx
  | (obtain ⟨z, hz, hzx⟩ := List.mem_filterMap.mp hx
     split_ifs at hzx
     injection hzx with h1
     rw [← h1]
     exact hy z hz)

theorem filterDefectsByMaskOverlap_rectAreaInv (defects : List DefectArea) (mask : Mat01)
    (minOverlap : ℚ) (hy : ∀ y ∈ defects, rectAreaInv y) :
    ∀ x ∈ filterDefectsByMaskOverlap defects mask minOverlap, rectAreaInv x := by
  intro x hx
  simp only [filterDefectsByMaskOverlap] at hx
  split_ifs at hx
  · exact hy x hx
  · obtain ⟨z, hz, hzx⟩ := List.mem_filterMap.mp hx
    split_ifs at hzx
    injection hzx with h1
    rw [← h1]
    exact hy z hz

theorem defectsFromMask_rectAreaInv (d : GoCVDetector) (contoursOf : Mat01 → List Contour)
    (mask : Mat01) (imageWidth imageHeight : Int) (reasonTag : String) :
    ∀ x ∈ defectsFromMask d contoursOf mask imageWidth imageHeight reasonTag, rectAreaInv x := by
  intro x hx
  unfold defectsFromMask at hx
  split_ifs at hx
  · cases hx
  · exact extractDefectsFromContours_rectAreaInv d _ _ _ _ x hx

theorem buildGeometryMismatchDefects_rectAreaInv (d : GoCVDetector)
    (contoursOf : Mat01 → List Contour) (mask : Mat01) (imageWidth imageHeight : Int)
    (reason : String) :
    ∀ x ∈ buildGeometryMismatchDefects d contoursOf mask imageWidth imageHeight reason,
      rectAreaInv x := by
  intro x hx
  simp only [buildGeometryMismatchDefects] at hx
  split_ifs at hx
  · cases hx
  · cases hrect : unionRectForMask (contoursOf mask)
        (((imageWidth * imageHeight : Int) : ℚ) * d.MinContourAreaFrac) with
    | none =>
      rw [hrect, Option.elim_none] at hx
      cases hx
    | some rect =>
      rw [hrect, Option.elim_some] at hx
      split_ifs at hx
      · cases hx
      · rw [List.mem_singleton] at hx
        subst hx
        rfl

theorem inspectDiffGeometryBranch_rectAreaInv (d : GoCVDetector) (c : DiffTailCtx)
    (geometryMask : Mat01) (geometryReason : String) :
    ∀ x ∈ (inspectDiffGeometryBranch d c geometryMask geometryReason).Defects,
      rectAreaInv x := by
  intro x hx
  exact buildGeometryMismatchDefects_rectAreaInv d c.contoursOf _ c.targetW c.targetH
    geometryReason x hx

theorem inspectDiffStructuralBranch_rectAreaInv (d : GoCVDetector) (c : DiffTailCtx)
    (structuralInput : Mat01) :
    ∀ x ∈ (inspectDiffStructuralBranch d c structuralInput).Defects, rectAreaInv x := by
  intro x hx
  simp only [inspectDiffStructuralBranch, mkResult] at hx
  split_ifs at hx
  all_goals first
  | exact extractDefectsFromContours_rectAreaInv d _ c.targetW c.targetH "diff_contour" x hx
  | exact keepDominantBrokenDefects_rectAreaInv _ _
      (fun y hy => mergeNearbyDefects_rectAreaInv _ _ le_rfl _
        (defectsFromMask_rectAreaInv d c.contoursOf structuralInput c.targetW c.targetH
          "broken_structural_mask") y hy) x hx
  | exact keepDominantBrokenDefects_rectAreaInv _ _
      (fun y hy => mergeNearbyDefects_rectAreaInv _ _ le_rfl _
        (filterDefectsByMaskOverlap_rectAreaInv _ structuralInput d.BrokenMinOverlapFrac
          (fun z hz => extractDefectsFromContours_rectAreaInv d _ c.targetW c.targetH
            "diff_contour" z hz)) y hy) x hx

/-- C8: every defect candidate produced by the Inspect tail or the
InspectDiff decision tail, including candidates coming from the broken-part
merge and fallback chain and from the geometry branch, stores as its Area the
width times height of its bounding box; the true contour area only gates
acceptance and is never stored. -/
theorem defectArea_rectArea_inv (d : GoCVDetector) (contours : List Contour)
    (cols rows : Int) (c : DiffTailCtx) (x : DefectArea) :
    (x ∈ (inspectTail d contours cols rows).Defects → x.Area = x.Width * x.Height)
    ∧ (x ∈ (inspectDiffTail d c).1.Defects → x.Area = x.Width * x.Height) := by
  constructor
  · intro hx
    exact extractDefectsFromContours_rectAreaInv d contours cols rows "edge_contour" x hx
  · intro hx
    cases hC : ((detectGeometryMismatch d c.geo c.baseMask c.currentMaskForROI).1 && !c.brokenMode) with
    | false =>
      simp only [inspectDiffTail, hC, Bool.false_eq_true, if_false] at hx
      exact inspectDiffStructuralBranch_rectAreaInv d c _ x hx
    | true =>
      simp only [inspectDiffTail, hC, eq_self_iff_true, if_true] at hx
      exact inspectDiffGeometryBranch_rectAreaInv d c _ _ x hx

/-- Contour of the extraction example: a 10 by 10 bounding box with true
contour area 80 inside a 100 by 100 frame, which passes every filter of the
default profile. -/
def contourC8 : Contour := ⟨0, 0, 10, 10, 80⟩

/-- Defect candidate the extraction example produces. -/
def defectC8 : DefectArea := ⟨0, 0, 10, 10, 100, "edge_contour"⟩

unseal Rat.mul Rat.inv Rat.add Rat.sub in
/-- Witness for the rectangle-area invariant: the concrete extracted
candidate stores Area 100 = 10 times 10. -/
theorem defectArea_rectArea_inv_witness :
    (inspectTail NewGoCVDetector [contourC8] 100 100).Defects = [defectC8]
    ∧ defectC8.Area = defectC8.Width * defectC8.Height := by
  have hlist : (inspectTail NewGoCVDetector [contourC8] 100 100).Defects = [defectC8] := by
    decide
  exact ⟨hlist,
    (defectArea_rectArea_inv NewGoCVDetector [contourC8] 100 100 ctxC1 defectC8).1
      (hlist ▸ List.mem_singleton_self defectC8)⟩

/-- C6: when the interior ROI covers more than ninety percent of the frame,
the quality gate skips the overexposure, underexposure and glare checks
entirely (the result does not depend on those three measurements) and scales
the sharpness floor by thirty-five hundredths, so the gate can fail only
with the too-small, empty-ROI, blurry or invalid-HSV reasons; once the size
and ROI checks pass, it reports blurry exactly when the edge fraction is
below the scaled floor. -/
theorem checkImageQuality_relaxed (d : GoCVDetector) (q : QualityInputs) (glareLimit : ℚ)
    (hne : q.matEmpty = false) (hroi : roiFracOf q > 90/100) :
    (∀ e, checkImageQuality d q glareLimit = some e →
        e = QualityError.tooSmall ∨ e = QualityError.emptyROI ∨ e = QualityError.blurry
          ∨ e = QualityError.invalidHSV)
    ∧ (∀ o u g, checkImageQuality d
          { q with overexposedFrac := o, underexposedFrac := u, glareFrac := g } glareLimit
        = checkImageQuality d q glareLimit)
    ∧ (¬(q.cols < d.MinImageSide ∨ q.rows < d.MinImageSide) →
        ¬(q.qualityMaskEmpty = true ∨ q.roiArea = 0) →
        (checkImageQuality d q glareLimit = some QualityError.blurry
          ↔ q.edgeFrac < d.MinSharpnessEdgeFrac * (35/100))) := by
  refine ⟨?_, ?_, ?_⟩
  · intro e he
    unfold checkImageQuality at he
    simp only [hne, Bool.false_eq_true, if_false, hroi] at he
    simp [hroi] at he
    split_ifs at he <;> simp_all
  · intro o u g
    have hfr : ∀ (m : Bool) (o1 u1 g1 : ℚ),
        roiFracOf ⟨m, q.cols, q.rows, q.qualityMaskEmpty, q.roiArea, q.edgeFrac,
          o1, u1, q.hsvChannels, g1⟩ = roiFracOf q := fun _ _ _ _ => rfl
    unfold checkImageQuality
    simp [hne, hfr, hroi, not_le.mpr hroi]
  · intro hsize hroiok
    obtain ⟨hs1, hs2⟩ := not_or.mp hsize
    obtain ⟨hq1, hq2⟩ := not_or.mp hroiok
    unfold checkImageQuality
    simp only [hne, Bool.false_eq_true, if_false]
    simp [hroi, hs1, hs2, hq1, hq2]

/-- Quality inputs of the relaxed-gate example: the interior ROI covers 96
percent of a 500 by 500 frame, and all three photometric ratios are at their
worst value 1. -/
def qC6 : QualityInputs :=
  { matEmpty := false, cols := 500, rows := 500, qualityMaskEmpty := false,
    roiArea := 240000, edgeFrac := 1, overexposedFrac := 1, underexposedFrac := 1,
    hsvChannels := 3, glareFrac := 1 }

unseal Rat.mul Rat.inv Rat.add Rat.sub in
/-- Witness for the relaxed-gate theorem: with ROI coverage 24/25 the gate's
result is unchanged when the exposure and glare measurements are zeroed. -/
theorem checkImageQuality_relaxed_witness :
    roiFracOf qC6 > 90/100
    ∧ checkImageQuality NewGoCVDetector
        { qC6 with overexposedFrac := 0, underexposedFrac := 0, glareFrac := 0 }
        NewGoCVDetector.DiffMaxGlareFrac
      = checkImageQuality NewGoCVDetector qC6 NewGoCVDetector.DiffMaxGlareFrac := by
  have hroi : roiFracOf qC6 > 90/100 := by decide
  exact ⟨hroi,
    (checkImageQuality_relaxed NewGoCVDetector qC6 NewGoCVDetector.DiffMaxGlareFrac rfl hroi).2.1
      0 0 0⟩

unseal Rat.mul Rat.inv Rat.add Rat.sub in
/-- C3 counterexample: on this base/current pair the geometry detector
triggers (round versus polygon), the XOR of the part masks has two pixels,
the outer ring band is non-empty, and the post-processed XOR restricted to
the band is empty; the claim says the unrestricted XOR is then used, but the
detector returns a mask with zero pixels, which is not the two-pixel XOR. -/
theorem detectGeometryMismatch_counterexample :
    (detectGeometryMismatch dSmall gOracle1 baseMask5 currentMask5).1 = true
    ∧ (buildOuterRingMask dSmall baseMask5 currentMask5).countNonZero ≠ 0
    ∧ (bitwiseAnd (postProcessDiffMask dSmall (bitwiseXor baseMask5 currentMask5))
        (buildOuterRingMask dSmall baseMask5 currentMask5)).countNonZero = 0
    ∧ (bitwiseXor baseMask5 currentMask5).countNonZero = 2
    ∧ (detectGeometryMismatch dSmall gOracle1 baseMask5 currentMask5).2.1.countNonZero = 0
    ∧ maskEqb (detectGeometryMismatch dSmall gOracle1 baseMask5 currentMask5).2.1
        (bitwiseXor baseMask5 currentMask5) = false := by
  decide

theorem detectGeometryMismatch_snd (d : GoCVDetector) (g : geometryOracle)
    (baseMask currentMask : Mat01)
    (htrig : (detectGeometryMismatch d g baseMask currentMask).1 = true) :
    (detectGeometryMismatch d g baseMask currentMask).2.1
      = geometryEvidenceMask d baseMask currentMask := by
  revert htrig
  simp only [detectGeometryMismatch]
  split_ifs <;> simp

/-- C3 amended: when the geometry detector triggers, its evidence mask is
built by geometryEvidenceMask, and when the XOR of the part masks is
non-empty two distinct fallbacks apply: if the outer ring band itself is
empty, the returned evidence mask is the post-processed XOR, unrestricted;
if the band is non-empty but the post-processed XOR restricted to it is
empty, the detector returns a fresh empty mask, not the unrestricted XOR. -/
theorem detectGeometryMismatch_fallback_spec (d : GoCVDetector) (g : geometryOracle)
    (baseMask currentMask : Mat01)
    (htrig : (detectGeometryMismatch d g baseMask currentMask).1 = true)
    (hxne : (bitwiseXor baseMask currentMask).isEmptyMat = false)
    (hxcnt : (bitwiseXor baseMask currentMask).countNonZero ≠ 0) :
    (detectGeometryMismatch d g baseMask currentMask).2.1
      = geometryEvidenceMask d baseMask currentMask
    ∧ ((buildOuterRingMask d baseMask currentMask).isEmptyMat = true
        ∨ (buildOuterRingMask d baseMask currentMask).countNonZero = 0 →
      geometryEvidenceMask d baseMask currentMask
        = postProcessDiffMask d (bitwiseXor baseMask currentMask))
    ∧ ((buildOuterRingMask d baseMask currentMask).isEmptyMat = false →
        (buildOuterRingMask d baseMask currentMask).countNonZero ≠ 0 →
        (bitwiseAnd (postProcessDiffMask d (bitwiseXor baseMask currentMask))
          (buildOuterRingMask d baseMask currentMask)).countNonZero = 0 →
      geometryEvidenceMask d baseMask currentMask = newMat) := by
  refine ⟨detectGeometryMismatch_snd d g baseMask currentMask htrig, ?_, ?_⟩
  · intro hring
    simp only [geometryEvidenceMask]
    split_ifs with h1 h2 h3
    · simp [hxne] at h1
      exact absurd h1 hxcnt
    · rfl
    all_goals rcases hring with hr | hr <;> simp [hr] at h2
  · intro hrne hrcnt hfoc
    simp only [geometryEvidenceMask]
    split_ifs with h1 h2 h3
    · simp [hxne] at h1
      exact absurd h1 hxcnt
    · simp [hrne] at h2
      exact absurd h2 hrcnt
    · rfl
    · simp [hfoc] at h3

unseal Rat.mul Rat.inv Rat.add Rat.sub in
/-- Witness of the amended geometry-fallback theorem at the concrete
example: with a non-empty ring band and empty restriction, the returned
mask is the empty mask. -/
theorem detectGeometryMismatch_fallback_spec_witness :
    (detectGeometryMismatch dSmall gOracle1 baseMask5 currentMask5).2.1 = newMat := by
  have h := detectGeometryMismatch_fallback_spec dSmall gOracle1 baseMask5 currentMask5
    (by decide) (by decide) (by decide)
  exact h.1.trans (h.2.2 (by decide) (by decide) (by decide))
